import Mathlib

/-!
Verification of the shopping-assistant backend core: the agent loop's tool
dispatch (`app/agent.py`), the system-primer injection (`_call_model`), the
response streamer (`astream`), the vector index (`app/vector_store.py`) and
the tool layer (`app/tools.py`). Python dictionaries become structures,
machine floats for prices and ratings become rationals, exceptions become
`Except`, and external collaborators (the embedding model, the catalog API,
the reasoning oracle) become explicit function parameters.
-/

namespace ECom

/-! ### Data model (spec section 3, `app/schemas.py` / tool-layer dicts) -/

/-- A product rating as returned by the catalog collaborator:
`rating: {rate, count}`. -/
structure Rating where
  rate : ℚ
  count : ℕ
deriving DecidableEq

/-- A catalog product record: `{id, title, price, category, description,
rating}` as the catalog collaborator returns it. -/
structure Product where
  id : ℤ
  title : String
  price : ℚ
  category : String
  description : String
  rating : Rating
deriving DecidableEq

/-- Message roles of the conversation (`system/user/assistant/tool`); the
LangChain classes HumanMessage, AIMessage, ToolMessage map onto these. -/
inductive Role where
  | system
  | user
  | assistant
  | tool
deriving DecidableEq

/-- One tool call requested by the reasoning oracle:
`tool_call = {"id": ..., "name": ..., "args": ...}`. The argument mapping is
kept opaque as a string since dispatch only forwards it. -/
structure ToolCall where
  id : String
  name : String
  args : String
deriving DecidableEq

/-- One conversation turn. `content` is the message text (empty when the
assistant message only carries tool calls); `tool_calls` is non-empty only on
assistant messages; `tool_call_id` and `tool_name` are set only on tool-role
messages, as in `ToolMessage(content, tool_call_id, name)`. -/
structure Message where
  role : Role
  content : String
  tool_calls : List ToolCall
  tool_call_id : Option String
  tool_name : Option String
deriving DecidableEq

/-- A HumanMessage carrying plain text. -/
def userMessage (content : String) : Message :=
  { role := Role.user, content := content, tool_calls := [],
    tool_call_id := none, tool_name := none }

/-- A registered tool of the `tools` list: a name plus its invocation
behaviour. `Except.error e` models `tool.ainvoke` raising exception `e`;
`Except.ok r` models it returning result `r`. -/
structure RegisteredTool where
  name : String
  invoke : String → Except String String

/-! ### Agent dispatch (`ShoppingAssistantAgent._tool_node`) -/

/-- `ToolMessage(content=..., tool_call_id=tool_call["id"],
name=tool_call["name"])` as built inside `_tool_node`. -/
def toolResultMessage (content : String) (tc : ToolCall) : Message :=
  { role := Role.tool, content := content, tool_calls := [],
    tool_call_id := some tc.id, tool_name := some tc.name }

/-- The body of `_tool_node`'s loop for one `tool_call`: look the name up in
`tools`; on a hit invoke it, converting an exception into an
"Error executing tool" message; on a miss produce the "not found" message. -/
def dispatchToolCall (tools : List RegisteredTool) (tc : ToolCall) : Message :=
  match tools.find? (fun t => t.name = tc.name) with
  | some t =>
    match t.invoke tc.args with
    | Except.ok result => toolResultMessage result tc
    | Except.error e => toolResultMessage ("Error executing tool: " ++ e) tc
  | none => toolResultMessage ("Tool '" ++ tc.name ++ "' not found") tc

/-- `_tool_node`: one tool-role message per tool call of the last (assistant)
message, in emission order; an empty `tool_calls` yields no messages. -/
def toolNode (tools : List RegisteredTool) (lastMessage : Message) : List Message :=
  lastMessage.tool_calls.map (dispatchToolCall tools)

/-- Placeholder for `messages[-1]` on an empty conversation; the graph never
dispatches on an empty state, so this value is never reached. -/
def blankMessage : Message :=
  { role := Role.assistant, content := "", tool_calls := [],
    tool_call_id := none, tool_name := none }

/-- One Dispatching step of the graph: `_tool_node` reads the last message of
the state and LangGraph's `add_messages` appends the returned tool messages
to the conversation. -/
def dispatchStep (tools : List RegisteredTool) (conv : List Message) : List Message :=
  conv ++ toolNode tools (conv.getLastD blankMessage)

/-! ### System-primer injection (`ShoppingAssistantAgent._call_model`) -/

/-- Python's `str.lower()` restricted to the character-wise case mapping. -/
def pyLower (s : String) : String :=
  String.mk (s.data.map Char.toLower)

/-- Whether `pat` occurs in `s` starting at its head (`Python: s.startswith`). -/
def listHeadMatch : List Char → List Char → Bool
  | _, [] => true
  | [], _ :: _ => false
  | a :: s, b :: p => a = b && listHeadMatch s p

/-- Python's `pat in s` substring test on character lists. -/
def listContainsSub : List Char → List Char → Bool
  | [], p => p.isEmpty
  | a :: s, p => listHeadMatch (a :: s) p || listContainsSub s p

/-- Python's `pat in s` on strings. -/
def strContainsSub (s pat : String) : Bool :=
  listContainsSub s.data pat.data

/-- The fixed system primer `_call_model` builds (a HumanMessage because of
`convert_system_message_to_human`). -/
def systemPrimerText : String :=
  "You are a helpful e-commerce shopping assistant. \nYou help users discover and learn about products from our store.\n\nAvailable tools:\n- get_products() - Show all available items\n- get_product_details(product_id) - Get specific product information\n- get_categories() - Show available categories\n- get_products_by_category(category) - Filter by category\n- search_products(query, category, min_price, max_price) - Search and filter products\n- compare_products(product_ids) - Compare multiple products side-by-side\n- add_to_cart(product_id, quantity) - Add items to shopping cart\n- remove_from_cart(product_id) - Remove items from cart\n- view_cart() - Show cart contents and total\n\nBe friendly, helpful, and concise. Format responses nicely for readability. Make sure you use spacious tabular format to show product lists and comparisons."

/-- The primer as a message. -/
def systemPrimer : Message := userMessage systemPrimerText

/-- `_call_model`'s presence test:
`any(isinstance(m, HumanMessage) and "shopping assistant" in m.content.lower()
for m in messages[:1])`. -/
def primerAlreadyPresent (messages : List Message) : Bool :=
  (messages.take 1).any
    (fun m => m.role = Role.user && strContainsSub (pyLower m.content) "shopping assistant")

/-- The message sequence `_call_model` hands to the oracle
(`self.llm_with_tools.ainvoke(messages)`): the state messages, with the
primer prepended unless the presence test fires on the first message. -/
def prepMessages (messages : List Message) : List Message :=
  if primerAlreadyPresent messages then messages else systemPrimer :: messages

/-! ### Response streamer (`ShoppingAssistantAgent.astream`) -/

/-- `chunk_size = 5` in `astream`. -/
def chunkSize : ℕ := 5

/-- The slicing loop `for i in range(0, len(content), chunk_size):
yield content[i:i+chunk_size]` on the character list of the answer. -/
def chunkLoop (cs : List Char) : List (List Char) :=
  if cs.isEmpty then []
  else cs.take chunkSize :: chunkLoop (cs.drop chunkSize)
termination_by cs.length
decreasing_by
  cases cs with
  | nil => simp_all
  | cons a t =>
    simp only [List.length_drop, List.length_cons, chunkSize]
    omega

/-- The chunk sequence `astream` yields for a final answer string. -/
def streamChunks (content : String) : List String :=
  (chunkLoop content.data).map String.mk

/-! ### Vector index (`app/vector_store.py`, class ProductVectorStore) -/

/-- The mutable state of `ProductVectorStore`: `self.index` (the FAISS index,
kept as the list of stored embedding vectors, `None` before any successful
build) and `self.products` (the parallel product snapshots). -/
structure VectorStore where
  index : Option (List (List ℚ))
  products : List Product

/-- The state right after `__init__`: `self.index = None`,
`self.products = []`. -/
def initialStore : VectorStore := { index := none, products := [] }

/-- The composite text built per product in `build_index`:
title, ". ", description, ". Category: ", category. -/
def productText (p : Product) : String :=
  p.title ++ ". " ++ p.description ++ ". Category: " ++ p.category

/-- The embedding collaborator `self.model.encode(texts)`: one vector per
text on success; `Except.error` models the call raising. -/
abbrev Encoder := List String → Except String (List (List ℚ))

/-- `build_index`: early return on an empty product list; otherwise
`self.products = products` is assigned first, then the composite texts are
embedded (which may raise — the second component carries the exception), and
only on success is a fresh index holding the embeddings swapped in. -/
def build_index (encode : Encoder) (st : VectorStore) (products : List Product) :
    VectorStore × Option String :=
  if products.isEmpty then (st, none)
  else
    let st1 : VectorStore := { st with products := products }
    match encode (products.map productText) with
    | Except.error e => (st1, some e)
    | Except.ok embeddings => ({ st1 with index := some embeddings }, none)

/-- Squared L2 distance, the metric of `faiss.IndexFlatL2`. -/
def sqDist (a b : List ℚ) : ℚ :=
  (List.zipWith (fun x y => (x - y) * (x - y)) a b).sum

/-- `self.index.search(query_embedding, k)`: the indices of the `k` stored
vectors nearest to the query in ascending distance order, ties broken by
insertion order (stable sort over the enumerated distances). -/
def indexSearch (entries : List (List ℚ)) (q : List ℚ) (k : ℕ) : List (ℕ × ℚ) :=
  (List.mergeSort (entries.map (sqDist q)).enum (fun a b => decide (a.2 ≤ b.2))).take k

/-- `ProductVectorStore.search`: empty result when the index or the product
list is unavailable; otherwise embed the query, retrieve
`min(top_k, len(self.products))` nearest entries, and keep each entry whose
index resolves in `self.products`, attaching the product snapshot and the
raw distance (`similarity_score`). -/
def search (encode : Encoder) (st : VectorStore) (query : String) (top_k : ℕ) :
    Except String (List (Product × ℚ)) :=
  if st.index.isNone || st.products.isEmpty then Except.ok []
  else
    match st.index with
    | none => Except.ok []
    | some entries =>
      match encode [query] with
      | Except.error e => Except.error e
      | Except.ok qembs =>
        let q := qembs.headD []
        let k := min top_k st.products.length
        Except.ok ((indexSearch entries q k).filterMap (fun pr =>
          match st.products[pr.1]? with
          | some p => some (p, pr.2)
          | none => none))

/-- A sequence of `build_index` calls against one store, as the startup /
refresh path performs them. -/
def runBuilds (encode : Encoder) (st : VectorStore) (calls : List (List Product)) :
    VectorStore :=
  calls.foldl (fun s c => (build_index encode s c).1) st

/-- The consistency property of claim C5: the state is the untouched initial
state when no non-empty build has happened (`last = none`), else it carries
the snapshots of the last non-empty build and one index entry per snapshot. -/
def indexConsistent (st : VectorStore) : Option (List Product) → Prop
  | none => st.index = none ∧ st.products = []
  | some c => ∃ embeddings,
      st.index = some embeddings ∧ st.products = c ∧ embeddings.length = c.length

/-- The last non-empty product list of a sequence of build calls. -/
def lastNonEmptyCall (calls : List (List Product)) : Option (List Product) :=
  calls.foldl (fun acc c => if c.isEmpty then acc else some c) none

/-- A sample encoder for concrete runs: one 1-dimensional zero vector per
text. -/
def constEncoder : Encoder :=
  fun texts => Except.ok (texts.map (fun _ => [0]))

/-- An encoder that embeds batches of exactly two texts and raises on any
other batch, exercising a build that fails at the embedding step. -/
def flakyEncoder : Encoder :=
  fun texts =>
    if texts.length = 2 then Except.ok (texts.map (fun _ => [0]))
    else Except.error "embedding backend down"

/-- Sample catalog products for concrete runs. -/
def productA : Product :=
  { id := 1, title := "Gold Ring", price := 10, category := "jewelery",
    description := "A ring", rating := { rate := 4, count := 100 } }

/-- Second sample product. -/
def productB : Product :=
  { id := 2, title := "Silver Ring", price := 20, category := "jewelery",
    description := "Another ring", rating := { rate := 3, count := 5 } }

/-- Third sample product. -/
def productC : Product :=
  { id := 3, title := "Down Jacket", price := 30, category := "men's clothing",
    description := "A jacket", rating := { rate := 5, count := 2 } }

/-! ### Tool layer (`app/tools.py`) -/

/-- Python's `str.strip()`: leading and trailing whitespace removed. -/
def pyStrip (s : String) : String :=
  String.mk
    (((s.data.dropWhile Char.isWhitespace).reverse.dropWhile Char.isWhitespace).reverse)

/-- The fixed synonym table of `normalize_category`. -/
def category_map : List (String × String) :=
  [("men", "men's clothing"), ("men's", "men's clothing"), ("mens", "men's clothing"),
   ("men's clothing", "men's clothing"), ("mens clothing", "men's clothing"),
   ("women", "women's clothing"), ("women's", "women's clothing"),
   ("womens", "women's clothing"), ("women's clothing", "women's clothing"),
   ("womens clothing", "women's clothing"),
   ("electronics", "electronics"), ("electronic", "electronics"), ("tech", "electronics"),
   ("jewelery", "jewelery"), ("jewelry", "jewelery"), ("jewellery", "jewelery")]

/-- `normalize_category`: lower-case and strip the input, then look it up in
the synonym table, passing unmapped input through unchanged. -/
def normalize_category (category : String) : String :=
  let categoryLower := pyStrip (pyLower category)
  (((category_map.find? (fun kv => kv.1 = categoryLower)).map Prod.snd).getD category)

/-- Python truthiness of an optional numeric argument: `None` and `0` are
falsy (`if min_price:` / `if max_price:`). -/
def truthyNum : Option ℚ → Bool
  | none => false
  | some v => decide (v ≠ 0)

/-- Python truthiness of an optional string argument: `None` and the empty
string are falsy (`if query:` / `if category:`). -/
def truthyStr : Option String → Bool
  | none => false
  | some s => decide (s ≠ "")

/-- The catalog collaborator `fake_store_api.get_products_by_category`:
the catalog's products of exactly the requested category. -/
def apiProductsByCategory (catalog : List Product) (c : String) : List Product :=
  catalog.filter (fun p => p.category = c)

/-- `normalized_category = normalize_category(category) if category else None`. -/
def normalizedCategoryArg (category : Option String) : Option String :=
  if truthyStr category then some (normalize_category (category.getD "")) else none

/-- `if min_price: results = [p for p in results if p['price'] >= min_price]`. -/
def applyMinPrice (minp : Option ℚ) (results : List Product) : List Product :=
  if truthyNum minp then results.filter (fun p => minp.getD 0 ≤ p.price) else results

/-- `if max_price: results = [p for p in results if p['price'] <= max_price]`. -/
def applyMaxPrice (maxp : Option ℚ) (results : List Product) : List Product :=
  if truthyNum maxp then results.filter (fun p => p.price ≤ maxp.getD 0) else results

/-- The result list of `search_products` before the price filters: fetch by
normalized category (or all products), then — when a query is given — either
semantic search over the vector store (top 20, then the category filter) when
the index is available, or the lower-cased substring fallback on title and
description. -/
def searchProductsRaw (catalog : List Product) (vs : VectorStore) (encode : Encoder)
    (query category : Option String) : Except String (List Product) :=
  let normalized := normalizedCategoryArg category
  let products := match normalized with
    | some c => apiProductsByCategory catalog c
    | none => catalog
  if truthyStr query then
    if vs.index.isSome then
      match search encode vs (query.getD "") 20 with
      | Except.error e => Except.error e
      | Except.ok found =>
        Except.ok (match normalized with
          | some c => (found.map Prod.fst).filter (fun p => p.category = c)
          | none => found.map Prod.fst)
    else
      Except.ok (products.filter (fun p =>
        strContainsSub (pyLower p.title) (pyLower (query.getD "")) ||
        strContainsSub (pyLower p.description) (pyLower (query.getD ""))))
  else Except.ok products

/-- The final result list of `search_products`: the raw results with the
min-price and then the max-price filter applied under their truthiness
guards; an exception from a collaborator propagates to the handler. -/
def searchProductsResults (catalog : List Product) (vs : VectorStore) (encode : Encoder)
    (query category : Option String) (minp maxp : Option ℚ) :
    Except String (List Product) :=
  match searchProductsRaw catalog vs encode query category with
  | Except.error e => Except.error e
  | Except.ok results => Except.ok (applyMaxPrice maxp (applyMinPrice minp results))

/-- Rendering of a numeric value inside tool texts; stands in for Python's
float/int string formatting, which no verified property inspects. -/
def reprNum (q : ℚ) : String := toString q

/-- One listing line of `search_products`. -/
def searchLine (p : Product) : String :=
  "ID: " ++ toString p.id ++ " | " ++ p.title ++ " | $" ++ reprNum p.price ++ " | " ++
    p.category ++ " | " ++ reprNum p.rating.rate ++ "/5"

/-- The filter echo inside the `search_products` header. -/
def searchHeaderFilters (query category : Option String) (minp maxp : Option ℚ) :
    List String :=
  (if truthyStr query then ["'" ++ query.getD "" ++ "'"] else []) ++
  (if truthyStr category then [category.getD ""] else []) ++
  (if truthyNum minp || truthyNum maxp then
    ["$" ++ reprNum (minp.getD 0) ++ "-$" ++
      (if truthyNum maxp then reprNum (maxp.getD 0) else "∞")]
   else [])

/-- The `Found n products (...)` header of `search_products`. -/
def searchHeader (n : ℕ) (query category : Option String) (minp maxp : Option ℚ) :
    String :=
  let filters := searchHeaderFilters query category minp maxp
  "Found " ++ toString n ++ " products" ++
    (if filters.isEmpty then "" else " (" ++ String.intercalate ", " filters ++ ")")

/-- `search_products`: render the computed results, "No products found" when
the filters eliminated everything, `Error: <e>` when a collaborator raised. -/
def search_products (catalog : List Product) (vs : VectorStore) (encode : Encoder)
    (query category : Option String) (minp maxp : Option ℚ) : String :=
  match searchProductsResults catalog vs encode query category minp maxp with
  | Except.error e => "Error: " ++ e
  | Except.ok results =>
    if results.isEmpty then "No products found"
    else searchHeader results.length query category minp maxp ++ ":\n\n" ++
      String.intercalate "\n" (results.map searchLine)

/-- Python's `min(list)` (left fold; the empty case is never reached since at
least two products are compared). -/
def pyMin : List ℚ → ℚ
  | [] => 0
  | h :: t => t.foldl min h

/-- Python's `max(list)`. -/
def pyMax : List ℚ → ℚ
  | [] => 0
  | h :: t => t.foldl max h

/-- Python's `list.index(x)`: the first position holding `x`. -/
def pyIndexOf (x : ℚ) (l : List ℚ) : ℕ := l.findIdx (fun y => y = x)

/-- The product-details fetch loop of `compare_products`: the resolved
products in input order, or the first id whose lookup raised. -/
def resolveProducts (lookup : ℤ → Except String Product) :
    List ℤ → Except ℤ (List Product)
  | [] => Except.ok []
  | pid :: rest =>
    match lookup pid with
    | Except.error _ => Except.error pid
    | Except.ok p =>
      match resolveProducts lookup rest with
      | Except.error q => Except.error q
      | Except.ok ps => Except.ok (p :: ps)

/-- The numbered block lines `f"{i+1}. {...}"` of the comparison. -/
def numberedLines (f : Product → String) (ps : List Product) : String :=
  String.intercalate "\n" (ps.enum.map (fun pr => toString (pr.1 + 1) ++ ". " ++ f pr.2))

/-- The 0-based position of the best-price callout:
`prices.index(min(prices))`. -/
def bestPriceIdx (ps : List Product) : ℕ :=
  pyIndexOf (pyMin (ps.map (fun p => p.price))) (ps.map (fun p => p.price))

/-- The 0-based position of the best-rating callout:
`ratings.index(max(ratings))`. -/
def bestRatingIdx (ps : List Product) : ℕ :=
  pyIndexOf (pyMax (ps.map (fun p => p.rating.rate))) (ps.map (fun p => p.rating.rate))

/-- The comparison block built for the resolved products. -/
def comparisonText (ps : List Product) : String :=
  "## Product Comparison\n\n" ++
  "**Names:**\n" ++ numberedLines (fun p => p.title) ps ++
  "\n\n**Prices:**\n" ++ numberedLines (fun p => "$" ++ reprNum p.price) ps ++
  "\n\n**Ratings:**\n" ++ numberedLines (fun p => reprNum p.rating.rate ++ "/5") ps ++
  "\n\n💰 Best Price: #" ++ toString (bestPriceIdx ps + 1) ++ " ($" ++
    reprNum (pyMin (ps.map (fun p => p.price))) ++ ")" ++
  "\n⭐ Best Rating: #" ++ toString (bestRatingIdx ps + 1) ++ " (" ++
    reprNum (pyMax (ps.map (fun p => p.rating.rate))) ++ "/5)"

/-- `compare_products`. -/
def compare_products (lookup : ℤ → Except String Product) (product_ids : List ℤ) :
    String :=
  if product_ids.length < 2 then "Need at least 2 products to compare"
  else if product_ids.length > 5 then "Max 5 products"
  else
    match resolveProducts lookup product_ids with
    | Except.error pid => "Product " ++ toString pid ++ " not found"
    | Except.ok ps => comparisonText ps

/-- One `CartItem` row of the cart table, keyed by `(user_id, product_id)`. -/
structure CartItem where
  user_id : String
  product_id : ℤ
  title : String
  price : ℚ
  quantity : ℤ
deriving DecidableEq

/-- The cart rows visible through the bound database session. -/
abbrev Cart := List CartItem

/-- The query filter `CartItem.user_id == "default" and
CartItem.product_id == product_id`. -/
def cartKeyMatch (pid : ℤ) (item : CartItem) : Bool :=
  item.user_id = "default" && item.product_id = pid

/-- In-place mutation of the first row returned by a query's `.first()`. -/
def updateFirstMatch (p : CartItem → Bool) (f : CartItem → CartItem) :
    Cart → Cart
  | [] => []
  | a :: rest => if p a then f a :: rest else a :: updateFirstMatch p f rest

/-- `db.delete(row)` of the first matching row. -/
def removeFirstMatch (p : CartItem → Bool) : Cart → Cart
  | [] => []
  | a :: rest => if p a then rest else a :: removeFirstMatch p rest

/-- `add_to_cart`: fetch the product first (a raising lookup becomes the
outer `Error: <e>` text), then require a bound session; increment the first
existing `(default, product_id)` row or append a fresh row. -/
def add_to_cart (lookup : ℤ → Except String Product) (db : Option Cart)
    (product_id : ℤ) (quantity : ℤ) : String × Option Cart :=
  match lookup product_id with
  | Except.error e => ("Error: " ++ e, db)
  | Except.ok product =>
    match db with
    | none => ("Error: Database not available", none)
    | some cart =>
      match cart.find? (cartKeyMatch product_id) with
      | some existing_item =>
        ("Updated: " ++ product.title ++ " x" ++ toString (existing_item.quantity + quantity),
         some (updateFirstMatch (cartKeyMatch product_id)
          (fun it => { it with quantity := it.quantity + quantity }) cart))
      | none =>
        let cart_item : CartItem :=
          { user_id := "default", product_id := product_id,
            title := product.title, price := product.price, quantity := quantity }
        ("Added: " ++ product.title ++ " x" ++ toString quantity ++ " ($" ++
            reprNum product.price ++ ")",
         some (cart ++ [cart_item]))

/-- `remove_from_cart`. -/
def remove_from_cart (db : Option Cart) (product_id : ℤ) : String × Option Cart :=
  match db with
  | none => ("Error: Database not available", none)
  | some cart =>
    match cart.find? (cartKeyMatch product_id) with
    | some _ =>
      ("Removed product " ++ toString product_id ++ " from cart",
       some (removeFirstMatch (cartKeyMatch product_id) cart))
    | none => ("Product " ++ toString product_id ++ " not in cart", some cart)

/-- One cart listing line with its subtotal. -/
def cartLineText (item : CartItem) : String :=
  "- " ++ item.title ++ " x" ++ toString item.quantity ++ " = $" ++
    reprNum (item.price * (item.quantity : ℚ))

/-- `view_cart`. -/
def view_cart (db : Option Cart) : String × Option Cart :=
  match db with
  | none => ("Error: Database session not available", none)
  | some cart =>
    let items := cart.filter (fun it => it.user_id = "default")
    if items.isEmpty then ("Cart is empty", some cart)
    else
      let total := (items.map (fun it => it.price * (it.quantity : ℚ))).sum
      ("## 🛒 Cart\n\n" ++ String.intercalate "\n" (items.map cartLineText) ++
        "\n\n**Total: $" ++ reprNum total ++ "**", some cart)

/-- A sample catalog lookup for concrete runs: ids 1..3 resolve to the sample
products, everything else raises. -/
def sampleLookup : ℤ → Except String Product :=
  fun pid =>
    if pid = 1 then Except.ok productA
    else if pid = 2 then Except.ok productB
    else if pid = 3 then Except.ok productC
    else Except.error "404 Not Found"

/-! ### Streamer lemmas and theorem (claim C9) -/

theorem chunkLoop_nil : chunkLoop [] = [] := by
  rw [chunkLoop]
  rfl

theorem chunkLoop_eq_nil_iff (cs : List Char) : chunkLoop cs = [] ↔ cs = [] := by
  constructor
  · intro h
    by_contra hne
    rw [chunkLoop] at h
    simp [hne] at h
  · intro h
    rw [h, chunkLoop_nil]

theorem chunkLoop_flatten (cs : List Char) : (chunkLoop cs).flatten = cs := by
  induction cs using chunkLoop.induct with
  | case1 cs h =>
    rw [List.isEmpty_iff] at h
    rw [h, chunkLoop_nil]
    rfl
  | case2 cs h ih =>
    rw [chunkLoop, if_neg (by simp [h])]
    rw [List.flatten_cons, ih, List.take_append_drop]

theorem chunkLoop_length (cs : List Char) :
    (chunkLoop cs).length = (cs.length + chunkSize - 1) / chunkSize := by
  induction cs using chunkLoop.induct with
  | case1 cs h =>
    rw [List.isEmpty_iff] at h
    rw [h, chunkLoop_nil]
    rfl
  | case2 cs h ih =>
    rw [chunkLoop, if_neg (by simp [h])]
    rw [List.isEmpty_iff] at h
    have hpos : 0 < cs.length := List.length_pos.mpr h
    rw [List.length_cons, ih, List.length_drop]
    simp only [chunkSize] at *
    omega

theorem chunkLoop_mem_length (cs : List Char) :
    ∀ l ∈ chunkLoop cs, 1 ≤ l.length ∧ l.length ≤ chunkSize := by
  induction cs using chunkLoop.induct with
  | case1 cs h =>
    rw [List.isEmpty_iff] at h
    rw [h, chunkLoop_nil]
    intro l hl
    simp at hl
  | case2 cs h ih =>
    rw [chunkLoop, if_neg (by simp [h])]
    rw [List.isEmpty_iff] at h
    have hpos : 0 < cs.length := List.length_pos.mpr h
    intro l hl
    rcases List.mem_cons.mp hl with rfl | hl
    · rw [List.length_take]
      simp only [chunkSize] at *
      omega
    · exact ih l hl

theorem chunkLoop_dropLast_length (cs : List Char) :
    ∀ l ∈ (chunkLoop cs).dropLast, l.length = chunkSize := by
  induction cs using chunkLoop.induct with
  | case1 cs h =>
    rw [List.isEmpty_iff] at h
    rw [h, chunkLoop_nil]
    intro l hl
    simp at hl
  | case2 cs h ih =>
    rw [chunkLoop, if_neg (by simp [h])]
    rw [List.isEmpty_iff] at h
    intro l hl
    cases hrest : chunkLoop (cs.drop chunkSize) with
    | nil =>
      rw [hrest] at hl
      simp at hl
    | cons r rs =>
      rw [hrest] at hl
      rw [show (List.take chunkSize cs :: r :: rs).dropLast
            = List.take chunkSize cs :: (r :: rs).dropLast from rfl] at hl
      rcases List.mem_cons.mp hl with rfl | hl
      · have hdrop : cs.drop chunkSize ≠ [] := by
          intro hd
          rw [hd, chunkLoop_nil] at hrest
          exact List.noConfusion hrest
        have : chunkSize < cs.length := by
          by_contra hle
          push_neg at hle
          exact hdrop (List.drop_eq_nil_of_le hle)
        rw [List.length_take]
        omega
      · have := ih l
        rw [hrest] at this
        exact this hl

theorem chunkLoop_getLast_length (cs : List Char) :
    ∀ l, (chunkLoop cs).getLast? = some l →
      l.length = cs.length - chunkSize * ((chunkLoop cs).length - 1) := by
  induction cs using chunkLoop.induct with
  | case1 cs h =>
    rw [List.isEmpty_iff] at h
    rw [h, chunkLoop_nil]
    intro l hl
    exact Option.noConfusion hl
  | case2 cs h ih =>
    rw [chunkLoop, if_neg (by simp [h])]
    rw [List.isEmpty_iff] at h
    have hpos : 0 < cs.length := List.length_pos.mpr h
    intro l hl
    cases hrest : chunkLoop (cs.drop chunkSize) with
    | nil =>
      have hdrop : cs.drop chunkSize = [] := (chunkLoop_eq_nil_iff _).mp hrest
      have hle : cs.length ≤ chunkSize := by
        have := List.length_drop chunkSize cs
        rw [hdrop] at this
        simp at this
        omega
      rw [hrest] at hl
      simp only [List.getLast?_singleton, Option.some.injEq] at hl
      rw [← hl, List.length_take]
      simp only [List.length_singleton]
      omega
    | cons r rs =>
      rw [hrest] at hl
      rw [List.getLast?_cons_cons] at hl
      have hlen := chunkLoop_length (cs.drop chunkSize)
      rw [hrest] at hlen
      have hdrop : cs.drop chunkSize ≠ [] := by
        intro hd
        rw [hd, chunkLoop_nil] at hrest
        exact List.noConfusion hrest
      have hgt : chunkSize < cs.length := by
        by_contra hle
        push_neg at hle
        exact hdrop (List.drop_eq_nil_of_le hle)
      have hrec := ih l (by rw [hrest]; exact hl)
      rw [hrest, List.length_drop] at hrec
      simp only [List.length_cons, chunkSize] at *
      omega

theorem string_join_mk_aux (ll : List (List Char)) (acc : List Char) :
    List.foldl (fun r s => r ++ s) (String.mk acc) (ll.map String.mk)
      = String.mk (acc ++ ll.flatten) := by
  induction ll generalizing acc with
  | nil => simp
  | cons h t ih =>
    rw [List.map_cons, List.foldl_cons]
    have happ : (String.mk acc ++ String.mk h) = String.mk (acc ++ h) := rfl
    rw [happ, ih, List.flatten_cons, List.append_assoc]

theorem string_join_mk (ll : List (List Char)) :
    String.join (ll.map String.mk) = String.mk ll.flatten := by
  have := string_join_mk_aux ll []
  simpa [String.join] using this

/-- C9: for every final answer string, the streamed chunk sequence has one
chunk per `chunk_size`-window of the answer in left-to-right order: joining
the chunks reconstructs the answer, every chunk but the last has length
exactly `chunkSize` (= 5), every chunk has length between 1 and 5, the
number of chunks is ⌈length / 5⌉, and the last chunk holds the remaining
characters. -/
theorem stream_chunks_spec (s : String) :
    String.join (streamChunks s) = s ∧
    (∀ c ∈ (streamChunks s).dropLast, c.length = chunkSize) ∧
    (∀ c ∈ streamChunks s, 1 ≤ c.length ∧ c.length ≤ chunkSize) ∧
    (streamChunks s).length = (s.length + chunkSize - 1) / chunkSize ∧
    (∀ c, (streamChunks s).getLast? = some c →
      c.length = s.length - chunkSize * ((streamChunks s).length - 1)) := by
  refine ⟨?_, ?_, ?_, ?_, ?_⟩
  · rw [streamChunks, string_join_mk, chunkLoop_flatten]
  · intro c hc
    rw [streamChunks, ← List.map_dropLast] at hc
    obtain ⟨l, hl, rfl⟩ := List.mem_map.mp hc
    exact chunkLoop_dropLast_length s.data l hl
  · intro c hc
    rw [streamChunks] at hc
    obtain ⟨l, hl, rfl⟩ := List.mem_map.mp hc
    exact chunkLoop_mem_length s.data l hl
  · rw [streamChunks, List.length_map]
    exact chunkLoop_length s.data
  · intro c hc
    rw [streamChunks, List.getLast?_map] at hc
    cases hlast : (chunkLoop s.data).getLast? with
    | none =>
      rw [hlast] at hc
      exact Option.noConfusion hc
    | some l =>
      rw [hlast] at hc
      simp only [Option.map_some'] at hc
      have hcl : String.mk l = c := by injection hc
      rw [← hcl]
      have := chunkLoop_getLast_length s.data l hlast
      rw [streamChunks, List.length_map]
      exact this

/-- Witness for C9 at the 12-character answer: 3 chunks, joining them gives
the answer back, and the last chunk has length 2. -/
theorem stream_chunks_witness :
    String.join (streamChunks "abcdefghijkl") = "abcdefghijkl" ∧
    (streamChunks "abcdefghijkl").length = 3 ∧
    ∃ c, (streamChunks "abcdefghijkl").getLast? = some c ∧ c.length = 2 := by
  have h := stream_chunks_spec "abcdefghijkl"
  have hlen : (streamChunks "abcdefghijkl").length = 3 := by
    rw [h.2.2.2.1]
    rfl
  refine ⟨h.1, hlen, ?_⟩
  have hne : streamChunks "abcdefghijkl" ≠ [] := by
    intro hnil
    rw [hnil] at hlen
    exact absurd hlen (by decide)
  obtain ⟨c, hc⟩ := Option.isSome_iff_exists.mp (List.getLast?_isSome.mpr hne)
  refine ⟨c, hc, ?_⟩
  have := h.2.2.2.2 c hc
  rw [hlen] at this
  rw [this]
  rfl

/-! ### Theorems on the dispatch step (claims C1, C2) -/

/-- Every branch of the dispatch body yields a tool-role message whose
`tool_call_id` is the id of the dispatched call. -/
theorem dispatchToolCall_linkage (tools : List RegisteredTool) (tc : ToolCall) :
    (dispatchToolCall tools tc).role = Role.tool ∧
    (dispatchToolCall tools tc).tool_call_id = some tc.id ∧
    (dispatchToolCall tools tc).tool_name = some tc.name := by
  unfold dispatchToolCall
  cases tools.find? (fun t => t.name = tc.name) with
  | none => simp [toolResultMessage]
  | some t => cases h : t.invoke tc.args <;> simp [h, toolResultMessage]

/-- C1: after a Dispatching step whose state ends in assistant message `m`,
the conversation is extended by exactly the messages of `toolNode tools m`,
and these stand in one-to-one order-preserving correspondence with
`m.tool_calls`: the i-th appended message is tool-role and its `tool_call_id`
is the id of the i-th ToolCall. -/
theorem dispatch_appends_one_result_per_toolcall
    (tools : List RegisteredTool) (conv : List Message) (m : Message) :
    dispatchStep tools (conv ++ [m]) = (conv ++ [m]) ++ toolNode tools m ∧
    List.Forall₂
      (fun tc msg => msg.role = Role.tool ∧ msg.tool_call_id = some tc.id ∧
        msg.tool_name = some tc.name)
      m.tool_calls (toolNode tools m) := by
  constructor
  · simp [dispatchStep, List.getLastD_concat]
  · unfold toolNode
    rw [List.forall₂_map_right_iff, List.forall₂_same]
    intro tc _
    exact dispatchToolCall_linkage tools tc

/-- C2: dispatch never aborts on a failing or unknown tool: each ToolCall of
the assistant message yields its message in the dispatch output, carrying the
call's id; an unregistered name yields the "Tool '<name>' not found" text and
a raising tool yields the "Error executing tool: <e>" text. -/
theorem dispatch_tool_failures_become_messages
    (tools : List RegisteredTool) (m : Message) (tc : ToolCall)
    (htc : tc ∈ m.tool_calls) :
    dispatchToolCall tools tc ∈ toolNode tools m ∧
    (dispatchToolCall tools tc).role = Role.tool ∧
    (dispatchToolCall tools tc).tool_call_id = some tc.id ∧
    (tools.find? (fun t => t.name = tc.name) = none →
      (dispatchToolCall tools tc).content = "Tool '" ++ tc.name ++ "' not found") ∧
    (∀ t e, tools.find? (fun t => t.name = tc.name) = some t →
      t.invoke tc.args = Except.error e →
      (dispatchToolCall tools tc).content = "Error executing tool: " ++ e) := by
  refine ⟨List.mem_map_of_mem _ htc, (dispatchToolCall_linkage tools tc).1,
    (dispatchToolCall_linkage tools tc).2.1, ?_, ?_⟩
  · intro hnone
    unfold dispatchToolCall
    rw [hnone]
    simp [toolResultMessage]
  · intro t e hfind hinv
    unfold dispatchToolCall
    rw [hfind]
    simp only [hinv]
    simp [toolResultMessage]

/-- Witness for C2: with an empty registry, dispatching the single call named
"frobnicate" produces the not-found message with the call's id. -/
theorem dispatch_tool_failures_witness :
    (dispatchToolCall [] { id := "call_1", name := "frobnicate", args := "" }).content
      = "Tool 'frobnicate' not found" ∧
    (dispatchToolCall [] { id := "call_1", name := "frobnicate", args := "" }).tool_call_id
      = some "call_1" := by
  have h := dispatch_tool_failures_become_messages []
    { role := Role.assistant, content := "",
      tool_calls := [{ id := "call_1", name := "frobnicate", args := "" }],
      tool_call_id := none, tool_name := none }
    { id := "call_1", name := "frobnicate", args := "" } (by simp)
  exact ⟨(h.2.2.2.1 rfl).trans (by decide), h.2.2.1⟩

/-! ### Theorems on the system primer (claim C3) -/

/-- C3 counterexample: when the conversation's first message is a user
message whose content contains "shopping assistant", `_call_model` hands the
oracle the conversation with the primer prepended zero times, not once. -/
theorem primer_omitted_when_first_message_mentions_assistant :
    prepMessages [userMessage "shopping assistant"]
      = [userMessage "shopping assistant"] ∧
    (prepMessages [userMessage "shopping assistant"]).count systemPrimer = 0 := by
  constructor
  · decide
  · decide

/-- C3 as amended: in a Reasoning step whose conversation does not fire the
presence heuristic on its first message and does not itself contain the
primer message, the sequence handed to the oracle is the conversation with
the primer prepended in front, occurring exactly once. -/
theorem primer_prepended_exactly_once (messages : List Message)
    (hfirst : primerAlreadyPresent messages = false)
    (hnotin : systemPrimer ∉ messages) :
    prepMessages messages = systemPrimer :: messages ∧
    (prepMessages messages).count systemPrimer = 1 := by
  have h1 : prepMessages messages = systemPrimer :: messages := by
    simp [prepMessages, hfirst]
  refine ⟨h1, ?_⟩
  rw [h1, List.count_cons_self, List.count_eq_zero.mpr hnotin]

/-- Witness for the amended C3 at the one-message conversation ["hi"]. -/
theorem primer_prepended_exactly_once_witness :
    prepMessages [userMessage "hi"] = systemPrimer :: [userMessage "hi"] ∧
    (prepMessages [userMessage "hi"]).count systemPrimer = 1 :=
  primer_prepended_exactly_once [userMessage "hi"] (by decide) (by decide)

/-! ### Theorems on the vector index (claims C4, C5) -/

/-- C4 counterexample: calling `build_index` with an empty product list after
a successful non-empty build is an early return that keeps the previous
state, so the index stays available — it is not left unavailable for every
prior state. -/
theorem build_empty_after_success_keeps_index_available :
    ((build_index constEncoder
        (build_index constEncoder initialStore [productA]).1 []).1).index ≠ none := by
  decide

/-- C4 as amended: in any state reached from the fresh store by builds that
were all given an empty product list, the index is unavailable and `search`
returns the empty sequence without raising, for every query, every `top_k`
and every behaviour of the embedding collaborator; and a build with an empty
product list is a no-op that leaves the whole state unchanged (hence leaves
the index unavailable exactly when it already was). -/
theorem search_unavailable_returns_empty (encode encq : Encoder)
    (calls : List (List Product)) (hcalls : ∀ c ∈ calls, c = [])
    (query : String) (top_k : ℕ) :
    (runBuilds encode initialStore calls).index = none ∧
    search encq (runBuilds encode initialStore calls) query top_k = Except.ok [] ∧
    (∀ st : VectorStore, build_index encode st [] = (st, none)) := by
  have hnoop : ∀ st : VectorStore, build_index encode st [] = (st, none) := by
    intro st
    simp [build_index]
  have hrun : ∀ (calls' : List (List Product)), (∀ c ∈ calls', c = []) →
      runBuilds encode initialStore calls' = initialStore := by
    intro calls'
    induction calls' with
    | nil => intro _; rfl
    | cons c cst ih =>
      intro hc
      have hhd : c = [] := hc c (List.mem_cons_self c cst)
      rw [runBuilds, List.foldl_cons, hhd, hnoop]
      exact ih (fun d hd => hc d (List.mem_cons_of_mem c hd))
  rw [hrun calls hcalls]
  refine ⟨rfl, ?_, hnoop⟩
  simp [search, initialStore]

/-- Witness for the amended C4: one empty build, then a search. -/
theorem search_unavailable_witness :
    (runBuilds constEncoder initialStore [[]]).index = none ∧
    search constEncoder (runBuilds constEncoder initialStore [[]]) "winter jacket" 10
      = Except.ok [] ∧
    (∀ st : VectorStore, build_index constEncoder st [] = (st, none)) :=
  search_unavailable_returns_empty constEncoder constEncoder [[]]
    (by intro c hc; simpa using hc) "winter jacket" 10

/-- C5 counterexample: a successful two-product build followed by a build
whose embedding step raises leaves `self.products` replaced (one snapshot)
while `self.index` still holds the two entries of the previous build: the
reachable state is neither unavailable nor the result of the last successful
build, and its entries and snapshots are out of step. -/
theorem failed_build_leaves_entries_and_snapshots_out_of_step :
    let st1 := (build_index flakyEncoder initialStore [productA, productB]).1
    let st2 := (build_index flakyEncoder st1 [productC]).1
    (build_index flakyEncoder st1 [productC]).2.isSome ∧
    st2.index = some [[0], [0]] ∧
    st2.products = [productC] ∧
    (st2.index.getD []).length ≠ st2.products.length := by
  decide

/-- Single build step of the C5 consistency argument. -/
theorem build_step_consistent (encode : Encoder) (st : VectorStore)
    (last : Option (List Product)) (c : List Product)
    (hc : c.isEmpty = false →
      ∃ embeddings, encode (c.map productText) = Except.ok embeddings ∧
        embeddings.length = c.length)
    (h : indexConsistent st last) :
    indexConsistent (build_index encode st c).1
      (if c.isEmpty then last else some c) := by
  by_cases hce : c.isEmpty
  · rw [if_pos hce]
    have : build_index encode st c = (st, none) := by
      simp [build_index, hce]
    rw [this]
    exact h
  · rw [if_neg hce]
    obtain ⟨embeddings, hok, hlen⟩ := hc (Bool.not_eq_true _ ▸ by simpa using hce)
    have : (build_index encode st c).1
        = { index := some embeddings, products := c } := by
      simp [build_index, hce, hok]
    rw [this]
    exact ⟨embeddings, rfl, rfl, hlen⟩

/-- C5 as amended: after every sequence of build calls in which each
non-empty call's embedding step succeeds with one embedding per product, the
state is exactly consistent — the untouched unavailable initial state when no
non-empty build has run, else the full result of the last non-empty build
with one index entry per stored product snapshot. (A build whose embedding
step raises is excluded: the counterexample shows it leaves the replaced
snapshots out of step with the previous index entries.) -/
theorem successful_builds_keep_index_consistent (encode : Encoder)
    (calls : List (List Product))
    (hok : ∀ c ∈ calls, c.isEmpty = false →
      ∃ embeddings, encode (c.map productText) = Except.ok embeddings ∧
        embeddings.length = c.length) :
    indexConsistent (runBuilds encode initialStore calls) (lastNonEmptyCall calls) := by
  suffices hgen : ∀ (calls' : List (List Product)) (st : VectorStore)
      (last : Option (List Product)),
      (∀ c ∈ calls', c.isEmpty = false →
        ∃ embeddings, encode (c.map productText) = Except.ok embeddings ∧
          embeddings.length = c.length) →
      indexConsistent st last →
      indexConsistent (runBuilds encode st calls')
        (calls'.foldl (fun acc c => if c.isEmpty then acc else some c) last) by
    exact hgen calls initialStore none hok ⟨rfl, rfl⟩
  intro calls'
  induction calls' with
  | nil => intro st last _ h; exact h
  | cons c cst ih =>
    intro st last hc h
    rw [runBuilds, List.foldl_cons, List.foldl_cons]
    exact ih (build_index encode st c).1 (if c.isEmpty then last else some c)
      (fun d hd => hc d (List.mem_cons_of_mem c hd))
      (build_step_consistent encode st last c (hc c (List.mem_cons_self c cst)) h)

/-- Witness for the amended C5: a successful two-product build followed by an
empty build keeps the index consistent with the last non-empty call. -/
theorem successful_builds_witness :
    indexConsistent (runBuilds constEncoder initialStore [[productA, productB], []])
      (lastNonEmptyCall [[productA, productB], []]) :=
  successful_builds_keep_index_consistent constEncoder [[productA, productB], []]
    (by
      intro c hc hne
      rcases List.mem_cons.mp hc with rfl | hc
      · exact ⟨[[0], [0]], rfl, rfl⟩
      · rcases List.mem_cons.mp hc with rfl | hc
        · exact absurd hne (by decide)
        · exact absurd hc (by simp))

/-! ### Theorems on search_products (claim C6) -/

/-- The max-price guard only ever removes products. -/
theorem mem_of_mem_applyMaxPrice (maxp : Option ℚ) (l : List Product) (p : Product)
    (hp : p ∈ applyMaxPrice maxp l) : p ∈ l := by
  unfold applyMaxPrice at hp
  by_cases h : truthyNum maxp
  · rw [if_pos h] at hp
    exact (List.mem_filter.mp hp).1
  · rw [if_neg h] at hp
    exact hp

/-- C6 counterexample: a supplied `max_price` of 0 is falsy, the filter is
skipped, and a product whose price exceeds the bound is listed. -/
theorem max_price_zero_filter_skipped :
    searchProductsResults [productA] initialStore constEncoder none none none (some 0)
      = Except.ok [productA] ∧
    ¬ productA.price ≤ 0 := ⟨rfl, by decide⟩

/-- C6 as amended: whenever `max_price` is supplied and non-zero, every
product of the computed listing has price ≤ max_price; whenever `min_price`
is supplied and non-zero, every listed product has price ≥ min_price
(a supplied bound of exactly 0 is falsy in the guard and its filter is
skipped); and whenever the filters eliminate every product the rendered
result is exactly "No products found". -/
theorem search_products_price_filters (catalog : List Product) (vs : VectorStore)
    (encode : Encoder) (query category : Option String) (minp maxp : Option ℚ)
    (results : List Product)
    (hres : searchProductsResults catalog vs encode query category minp maxp
      = Except.ok results) :
    (∀ v, maxp = some v → v ≠ 0 → ∀ p ∈ results, p.price ≤ v) ∧
    (∀ v, minp = some v → v ≠ 0 → ∀ p ∈ results, v ≤ p.price) ∧
    (results = [] →
      search_products catalog vs encode query category minp maxp
        = "No products found") := by
  obtain ⟨raw, hraw, hresults⟩ :
      ∃ raw, searchProductsRaw catalog vs encode query category = Except.ok raw ∧
        results = applyMaxPrice maxp (applyMinPrice minp raw) := by
    unfold searchProductsResults at hres
    cases h : searchProductsRaw catalog vs encode query category with
    | error e =>
      rw [h] at hres
      exact Except.noConfusion hres
    | ok raw =>
      rw [h] at hres
      refine ⟨raw, rfl, ?_⟩
      injection hres with h2
      exact h2.symm
  refine ⟨?_, ?_, ?_⟩
  · intro v hv hne p hp
    subst hv
    rw [hresults] at hp
    have htruthy : truthyNum (some v) = true := by simp [truthyNum, hne]
    unfold applyMaxPrice at hp
    rw [if_pos htruthy] at hp
    have := (List.mem_filter.mp hp).2
    simpa using this
  · intro v hv hne p hp
    subst hv
    rw [hresults] at hp
    have hp2 : p ∈ applyMinPrice (some v) raw := mem_of_mem_applyMaxPrice maxp _ p hp
    have htruthy : truthyNum (some v) = true := by simp [truthyNum, hne]
    unfold applyMinPrice at hp2
    rw [if_pos htruthy] at hp2
    have := (List.mem_filter.mp hp2).2
    simpa using this
  · intro h0
    unfold search_products
    rw [hres, h0]
    rfl

/-- Witness for the amended C6: a non-zero max price below every catalog
price eliminates everything and yields "No products found". -/
theorem search_products_price_filters_witness :
    search_products [productA] initialStore constEncoder none none none (some 5)
      = "No products found" := by
  have h := search_products_price_filters [productA] initialStore constEncoder
    none none none (some 5) [] rfl
  exact h.2.2 rfl

/-! ### Theorems on the cart operations (claims C8, C10) -/

/-- A query over rows that all fail the filter returns no row. -/
theorem find?_none_of_all_false (p : CartItem → Bool) (l : Cart)
    (h : ∀ x ∈ l, p x = false) : l.find? p = none :=
  List.find?_eq_none.mpr (fun x hx hpx => by rw [h x hx] at hpx; exact Bool.noConfusion hpx)

/-- `.first()` over appended rows skips a prefix of non-matching rows. -/
theorem find?_append_of_all_false (p : CartItem → Bool) (l1 l2 : Cart)
    (h : ∀ x ∈ l1, p x = false) : (l1 ++ l2).find? p = l2.find? p := by
  induction l1 with
  | nil => rfl
  | cons a t ih =>
    rw [List.cons_append, List.find?_cons_of_neg]
    · exact ih (fun x hx => h x (List.mem_cons_of_mem a hx))
    · simp [h a (List.mem_cons_self a t)]

/-- Updating the first matching row leaves a non-matching prefix alone. -/
theorem updateFirstMatch_append_of_all_false (p : CartItem → Bool)
    (f : CartItem → CartItem) (l1 l2 : Cart) (h : ∀ x ∈ l1, p x = false) :
    updateFirstMatch p f (l1 ++ l2) = l1 ++ updateFirstMatch p f l2 := by
  induction l1 with
  | nil => rfl
  | cons a t ih =>
    rw [List.cons_append, updateFirstMatch,
      if_neg (by simp [h a (List.mem_cons_self a t)]),
      ih (fun x hx => h x (List.mem_cons_of_mem a hx)), List.cons_append]

/-- C8: adding the same resolvable product twice against a cart that holds no
line for it yields exactly one `(default, P)` line, whose quantity is the sum
of the two requested quantities; the second call updates the line created by
the first instead of inserting another. -/
theorem add_to_cart_accumulates_single_line (lookup : ℤ → Except String Product)
    (P q1 q2 : ℤ) (cart : Cart) (product : Product)
    (hp : lookup P = Except.ok product)
    (h0 : ∀ item ∈ cart, cartKeyMatch P item = false) :
    ∃ cart1 cart2,
      (add_to_cart lookup (some cart) P q1).2 = some cart1 ∧
      (add_to_cart lookup (some cart1) P q2).2 = some cart2 ∧
      (cart2.filter (cartKeyMatch P)).length = 1 ∧
      ∀ item ∈ cart2.filter (cartKeyMatch P), item.quantity = q1 + q2 := by
  have hfind1 : cart.find? (cartKeyMatch P) = none := find?_none_of_all_false _ _ h0
  refine ⟨cart ++ [⟨"default", P, product.title, product.price, q1⟩], cart ++ [⟨"default", P, product.title, product.price, q1 + q2⟩], ?_, ?_, ?_, ?_⟩
  · simp [add_to_cart, hp, hfind1]
  · have hfind2 : (cart ++ [(⟨"default", P, product.title, product.price, q1⟩ : CartItem)]).find? (cartKeyMatch P) = some ⟨"default", P, product.title, product.price, q1⟩ := by
      rw [find?_append_of_all_false _ _ _ h0]
      rw [List.find?_cons_of_pos]
      simp [cartKeyMatch]
    simp only [add_to_cart, hp, hfind2]
    rw [updateFirstMatch_append_of_all_false _ _ _ _ h0]
    rw [updateFirstMatch, if_pos (by simp [cartKeyMatch])]
  · rw [List.filter_append]
    rw [List.filter_eq_nil_iff.mpr (fun a ha => by simp [h0 a ha])]
    simp [cartKeyMatch]
  · intro item hitem
    rw [List.filter_append] at hitem
    rw [List.filter_eq_nil_iff.mpr (fun a ha => by simp [h0 a ha])] at hitem
    simp only [List.nil_append] at hitem
    have hmem : item ∈ [(⟨"default", P, product.title, product.price, q1 + q2⟩ : CartItem)] :=
      List.mem_of_mem_filter hitem
    rw [List.mem_singleton] at hmem
    rw [hmem]

/-- Witness for C8: against an empty cart, adding product 1 with quantity 2
and then quantity 3 leaves a single line of quantity 5. -/
theorem add_to_cart_accumulates_witness :
    ∃ cart1 cart2,
      (add_to_cart sampleLookup (some []) 1 2).2 = some cart1 ∧
      (add_to_cart sampleLookup (some cart1) 1 3).2 = some cart2 ∧
      (cart2.filter (cartKeyMatch 1)).length = 1 ∧
      ∀ item ∈ cart2.filter (cartKeyMatch 1), item.quantity = 2 + 3 :=
  add_to_cart_accumulates_single_line sampleLookup 1 2 3 [] productA rfl
    (fun item hitem => absurd hitem (List.not_mem_nil item))

/-- C10: every cart operation invoked while no database session is bound in
the context variable returns its textual "Error: Database ... not available"
message instead of raising, and leaves the (absent) session state unchanged. -/
theorem cart_ops_report_missing_db (lookup : ℤ → Except String Product)
    (P q : ℤ) (product : Product) (hp : lookup P = Except.ok product) :
    add_to_cart lookup none P q = ("Error: Database not available", none) ∧
    remove_from_cart none P = ("Error: Database not available", none) ∧
    view_cart none = ("Error: Database session not available", none) := by
  refine ⟨?_, rfl, rfl⟩
  simp [add_to_cart, hp]

/-- Witness for C10 at product id 1 and quantity 2. -/
theorem cart_ops_report_missing_db_witness :
    add_to_cart sampleLookup none 1 2 = ("Error: Database not available", none) ∧
    remove_from_cart none 1 = ("Error: Database not available", none) ∧
    view_cart none = ("Error: Database session not available", none) :=
  cart_ops_report_missing_db sampleLookup 1 2 productA rfl

/-! ### Theorems on compare_products (claim C7) -/

theorem foldl_min_le_init (l : List ℚ) : ∀ a : ℚ, l.foldl min a ≤ a := by
  induction l with
  | nil => intro a; exact le_refl a
  | cons h t ih =>
    intro a
    rw [List.foldl_cons]
    exact le_trans (ih (min a h)) (min_le_left a h)

theorem foldl_min_le_mem (l : List ℚ) : ∀ (a x : ℚ), x ∈ l → l.foldl min a ≤ x := by
  induction l with
  | nil => intro a x hx; exact absurd hx (List.not_mem_nil x)
  | cons h t ih =>
    intro a x hx
    rw [List.foldl_cons]
    rcases List.mem_cons.mp hx with rfl | hx
    · exact le_trans (foldl_min_le_init t (min a x)) (min_le_right a x)
    · exact ih (min a h) x hx

theorem foldl_min_eq_or_mem (l : List ℚ) : ∀ a : ℚ, l.foldl min a = a ∨ l.foldl min a ∈ l := by
  induction l with
  | nil => intro a; exact Or.inl rfl
  | cons h t ih =>
    intro a
    rw [List.foldl_cons]
    rcases ih (min a h) with heq | hmem
    · rw [heq]
      rcases le_total a h with hle | hle
      · exact Or.inl (min_eq_left hle)
      · exact Or.inr (by rw [min_eq_right hle]; exact List.mem_cons_self h t)
    · exact Or.inr (List.mem_cons_of_mem h hmem)

theorem pyMin_mem (l : List ℚ) (h : l ≠ []) : pyMin l ∈ l := by
  cases l with
  | nil => exact absurd rfl h
  | cons a t =>
    show List.foldl min a t ∈ a :: t
    rcases foldl_min_eq_or_mem t a with heq | hmem
    · rw [heq]; exact List.mem_cons_self a t
    · exact List.mem_cons_of_mem a hmem

theorem pyMin_le (l : List ℚ) : ∀ x ∈ l, pyMin l ≤ x := by
  intro x hx
  cases l with
  | nil => exact absurd hx (List.not_mem_nil x)
  | cons a t =>
    unfold pyMin
    rcases List.mem_cons.mp hx with rfl | hx
    · exact foldl_min_le_init t x
    · exact foldl_min_le_mem t a x hx

theorem foldl_max_init_le (l : List ℚ) : ∀ a : ℚ, a ≤ l.foldl max a := by
  induction l with
  | nil => intro a; exact le_refl a
  | cons h t ih =>
    intro a
    rw [List.foldl_cons]
    exact le_trans (le_max_left a h) (ih (max a h))

theorem foldl_max_mem_le (l : List ℚ) : ∀ (a x : ℚ), x ∈ l → x ≤ l.foldl max a := by
  induction l with
  | nil => intro a x hx; exact absurd hx (List.not_mem_nil x)
  | cons h t ih =>
    intro a x hx
    rw [List.foldl_cons]
    rcases List.mem_cons.mp hx with rfl | hx
    · exact le_trans (le_max_right a x) (foldl_max_init_le t (max a x))
    · exact ih (max a h) x hx

theorem foldl_max_eq_or_mem (l : List ℚ) : ∀ a : ℚ, l.foldl max a = a ∨ l.foldl max a ∈ l := by
  induction l with
  | nil => intro a; exact Or.inl rfl
  | cons h t ih =>
    intro a
    rw [List.foldl_cons]
    rcases ih (max a h) with heq | hmem
    · rw [heq]
      rcases le_total a h with hle | hle
      · exact Or.inr (by rw [max_eq_right hle]; exact List.mem_cons_self h t)
      · exact Or.inl (max_eq_left hle)
    · exact Or.inr (List.mem_cons_of_mem h hmem)

theorem pyMax_mem (l : List ℚ) (h : l ≠ []) : pyMax l ∈ l := by
  cases l with
  | nil => exact absurd rfl h
  | cons a t =>
    show List.foldl max a t ∈ a :: t
    rcases foldl_max_eq_or_mem t a with heq | hmem
    · rw [heq]; exact List.mem_cons_self a t
    · exact List.mem_cons_of_mem a hmem

theorem pyMax_le (l : List ℚ) : ∀ x ∈ l, x ≤ pyMax l := by
  intro x hx
  cases l with
  | nil => exact absurd hx (List.not_mem_nil x)
  | cons a t =>
    unfold pyMax
    rcases List.mem_cons.mp hx with rfl | hx
    · exact foldl_max_init_le t x
    · exact foldl_max_mem_le t a x hx

/-- `list.index(x)` points at an occurrence of `x`, and everything before it
differs from `x`. -/
theorem pyIndexOf_spec (x : ℚ) (l : List ℚ) (hx : x ∈ l) :
    pyIndexOf x l < l.length ∧
    l[pyIndexOf x l]? = some x ∧
    ∀ j < pyIndexOf x l, ∀ y, l[j]? = some y → y ≠ x := by
  have hlt : pyIndexOf x l < l.length := by
    unfold pyIndexOf
    exact List.findIdx_lt_length.mpr ⟨x, hx, by simp⟩
  refine ⟨hlt, ?_, ?_⟩
  · rw [List.getElem?_eq_getElem hlt]
    have hpred : (fun y => decide (y = x)) l[pyIndexOf x l] = true := by
      unfold pyIndexOf at hlt ⊢
      exact @List.findIdx_getElem _ _ _ hlt
    rw [of_decide_eq_true hpred]
  · intro j hj y hy
    have hjlen : j < l.length := lt_trans hj hlt
    rw [List.getElem?_eq_getElem hjlen] at hy
    have hpred : (fun y => decide (y = x)) l[j] = false := by
      unfold pyIndexOf at hj
      exact List.not_of_lt_findIdx hj
    have : l[j] ≠ x := by
      intro heq
      rw [heq] at hpred
      simp at hpred
    injection hy with hy2
    rw [← hy2]
    exact this

/-- A successful details loop returns one product per requested id. -/
theorem resolveProducts_length (lookup : ℤ → Except String Product) :
    ∀ (ids : List ℤ) (ps : List Product),
      resolveProducts lookup ids = Except.ok ps → ps.length = ids.length := by
  intro ids
  induction ids with
  | nil =>
    intro ps h
    unfold resolveProducts at h
    injection h with h2
    rw [← h2]
    rfl
  | cons pid rest ih =>
    intro ps h
    unfold resolveProducts at h
    cases hl : lookup pid with
    | error e =>
      rw [hl] at h
      exact Except.noConfusion h
    | ok p =>
      rw [hl] at h
      cases hr : resolveProducts lookup rest with
      | error q =>
        rw [hr] at h
        exact Except.noConfusion h
      | ok ps2 =>
        rw [hr] at h
        injection h with h2
        rw [← h2, List.length_cons, List.length_cons, ih ps2 hr]

/-- C7: fewer than 2 ids yields the "Need at least 2" guidance, more than 5
the "Max 5" guidance, a failing lookup the "Product <id> not found" text; and
when all 2–5 ids resolve the result is the comparison block whose best-price
callout is the first input position achieving the minimum price and whose
best-rating callout is the first input position achieving the maximum
rating (ties to the lower index). -/
theorem compare_products_spec (lookup : ℤ → Except String Product) (ids : List ℤ) :
    (ids.length < 2 → compare_products lookup ids = "Need at least 2 products to compare") ∧
    (5 < ids.length → compare_products lookup ids = "Max 5 products") ∧
    (∀ pid, 2 ≤ ids.length → ids.length ≤ 5 →
      resolveProducts lookup ids = Except.error pid →
      compare_products lookup ids = "Product " ++ toString pid ++ " not found") ∧
    (∀ ps, 2 ≤ ids.length → ids.length ≤ 5 →
      resolveProducts lookup ids = Except.ok ps →
      compare_products lookup ids = comparisonText ps ∧
      ps.length = ids.length ∧
      bestPriceIdx ps < ps.length ∧
      (ps.map (fun p => p.price))[bestPriceIdx ps]?
        = some (pyMin (ps.map (fun p => p.price))) ∧
      (∀ j < bestPriceIdx ps, ∀ q, (ps.map (fun p => p.price))[j]? = some q →
        q ≠ pyMin (ps.map (fun p => p.price))) ∧
      (∀ p ∈ ps, pyMin (ps.map (fun p => p.price)) ≤ p.price) ∧
      bestRatingIdx ps < ps.length ∧
      (ps.map (fun p => p.rating.rate))[bestRatingIdx ps]?
        = some (pyMax (ps.map (fun p => p.rating.rate))) ∧
      (∀ j < bestRatingIdx ps, ∀ q, (ps.map (fun p => p.rating.rate))[j]? = some q →
        q ≠ pyMax (ps.map (fun p => p.rating.rate))) ∧
      (∀ p ∈ ps, p.rating.rate ≤ pyMax (ps.map (fun p => p.rating.rate)))) := by
  refine ⟨?_, ?_, ?_, ?_⟩
  · intro h
    unfold compare_products
    rw [if_pos h]
  · intro h
    unfold compare_products
    rw [if_neg (by omega), if_pos h]
  · intro pid h2 h5 hres
    unfold compare_products
    rw [if_neg (by omega), if_neg (by omega), hres]
  · intro ps h2 h5 hres
    have hlen : ps.length = ids.length := resolveProducts_length lookup ids ps hres
    have hne : ps ≠ [] := by
      intro h
      rw [h] at hlen
      simp at hlen
      omega
    have hprices : ps.map (fun p => p.price) ≠ [] := by
      simpa using hne
    have hrates : ps.map (fun p => p.rating.rate) ≠ [] := by
      simpa using hne
    have hminmem := pyMin_mem _ hprices
    have hmaxmem := pyMax_mem _ hrates
    have hpspec := pyIndexOf_spec _ _ hminmem
    have hrspec := pyIndexOf_spec _ _ hmaxmem
    refine ⟨?_, hlen, ?_, hpspec.2.1, hpspec.2.2, ?_, ?_, hrspec.2.1, hrspec.2.2, ?_⟩
    · unfold compare_products
      rw [if_neg (by omega), if_neg (by omega), hres]
    · have := hpspec.1
      rw [List.length_map] at this
      exact this
    · intro p hp
      exact pyMin_le _ p.price (List.mem_map_of_mem _ hp)
    · have := hrspec.1
      rw [List.length_map] at this
      exact this
    · intro p hp
      exact pyMax_le _ p.rating.rate (List.mem_map_of_mem _ hp)

/-- Witness for C7: comparing products 1 and 2 renders the comparison block,
with the best-price position holding the minimum price. -/
theorem compare_products_witness :
    compare_products sampleLookup [1, 2] = comparisonText [productA, productB] ∧
    ([productA, productB].map (fun p => p.price))[bestPriceIdx [productA, productB]]?
      = some (pyMin ([productA, productB].map (fun p => p.price))) := by
  have h := (compare_products_spec sampleLookup [1, 2]).2.2.2 [productA, productB]
    (by decide) (by decide) rfl
  exact ⟨h.1, h.2.2.2.1⟩

end ECom
